import Mathlib

/-
Shallow embedding of the I2C-to-SD-card protocol engine from
ATTINY1614_i2cSDCard_v14.ino.

The engine's global variables become fields of `MState`.  The external
filesystem / card library (SD.h) is abstracted by an oracle `Env` giving the
results of each library call; the calls the engine makes are recorded in a
trace of `FSCall` values.  Bus events (address match for write/read, data
byte written, data byte requested, stop) become the `Event` type, and the
interrupt service routine becomes the step function `isrStep`.

Machine integers are modelled as `Nat` with explicit `% 256` / `% 2^32`
masking where the C code truncates, and the C `int ptr` (which the 'V'
command sets to -1) is an `Int`.
-/

namespace I2CSD

/-- One directory entry as yielded by `openNextFile` of the SD library:
its `isDirectory()` flag, its `name()` as a byte list (the C string up to
but excluding the terminating null), and its `size()`. -/
structure DirEntry where
  isDir : Bool
  name  : List Nat
  size  : Nat
  deriving DecidableEq, Repr

/-- Calls the engine makes into the external SD / card / volume library. -/
inductive FSCall where
  | openW | openR | openA
  | fileWrite (b : Nat)
  | fileRead
  | fileSizeQ
  | closeFile
  | sdExists
  | probeOpen | probeClose
  | mkdir | rmdir | remove
  | cardInit
  | volInit
  | openDir | openNext | closeDir | closeEntry
  deriving DecidableEq, Repr

/-- Oracle for the external SD library: the results its calls would return.
(The read cursor inside an open `File` object belongs to the external
library; `fileReadByte` abstracts `myFile.read()`.) -/
structure Env where
  existsRes        : Bool
  openOkW          : Bool
  openOkR          : Bool
  openOkA          : Bool
  probeOk          : Bool
  probeIsDir       : Bool
  mkdirRes         : Bool
  rmdirRes         : Bool
  removeRes        : Bool
  cardInitOk       : Bool
  cardType         : Nat
  volInitOk        : Bool
  fatType          : Nat
  blocksPerCluster : Nat
  clusterCount     : Nat
  dirOpenOk        : Bool
  dirIsDir         : Bool
  dirEntries       : List DirEntry
  fileSize         : Nat
  fileReadByte     : Nat
  deriving DecidableEq, Repr

/-- The `dirList_state` enumeration of the source. -/
inductive DirStreamState where
  | idle | sendName | sendSize | sendTypeNext | sendEnd
  deriving DecidableEq, Repr

/-- The engine's global mutable state (`command`, `ch`, `ptr`, `checknack`,
the TWI data register, `Filename[64]`, the RTC buffer and clock, the
`myFile` handle's truthiness, the `Filesize` union, the cached volume info,
and the directory-listing stream state).  `dirRemaining` models the open
directory's iterator (the entries `openNextFile` has yet to yield);
`dirEntry` models `dirList_currentEntry` (`none` = invalid/closed File). -/
structure MState where
  command       : Nat
  ch            : Nat
  ptr           : Int
  checknack     : Bool
  sdata         : Nat
  filename      : List Nat
  rtcBuffer     : List Nat
  rtcPtr        : Nat
  currentYear   : Nat
  currentMonth  : Nat
  currentDay    : Nat
  currentHour   : Nat
  currentMinute : Nat
  currentSecond : Nat
  myFileOpen    : Bool
  filesize      : Nat
  volFatType    : Nat
  volBlocks     : Nat
  volClusters   : Nat
  dirState      : DirStreamState
  dirByteCounter : Nat
  dirNameBuf    : List Nat
  dirEntrySize  : Nat
  dirOpen       : Bool
  dirEntry      : Option DirEntry
  dirRemaining  : List DirEntry
  deriving DecidableEq, Repr

/-- `strrchr(name, '/')` followed by the +1 adjustment of the source:
the portion of the name after the last '/' (byte 47), or the whole name
when it contains no '/'. -/
def afterLastSlash (l : List Nat) : List Nat :=
  l.foldl (fun acc c => if c = 47 then [] else acc ++ [c]) []

/-- The `memset` + `strncpy(dirList_filenameBuffer, baseName, 12)` capture:
the copied characters are the base name's characters up to its null byte,
at most 12 of them (the zero padding of the 13-byte array is kept implicit:
it is never read below `strlen`). -/
def captureBuf (nm : List Nat) : List Nat :=
  ((afterLastSlash nm).takeWhile (fun c => c != 0)).take 12

/-- `strlen` of the captured name buffer: characters before the first null. -/
def strlenBuf (buf : List Nat) : Nat :=
  (buf.takeWhile (fun c => c != 0)).length

/-- `AddressHostRead()`: reset `ptr` when the active command is 'V' or 'S'. -/
def AddressHostRead (st : MState) : MState :=
  if st.command = 86 ∨ st.command = 83 then { st with ptr := 0 } else st

/-- The directory-listing teardown shared by `AddressHostWrite()` and
`Stop()`: when the directory is open, close the entry handle (when valid)
and the directory handle. -/
def closeListing (st : MState) : MState × List FSCall :=
  if st.dirOpen then
    ({ st with dirEntry := none, dirOpen := false },
     (if st.dirEntry.isSome then [FSCall.closeEntry] else []) ++ [FSCall.closeDir])
  else (st, [])

/-- `AddressHostWrite()`: reset `command`, `ch`, `ptr`, `rtc_buffer_ptr`,
close any open directory-listing handles, reset the listing stream state.
Always acknowledges.  (It does not touch `myFile`.) -/
def AddressHostWrite (st : MState) : MState × List FSCall :=
  let c := closeListing { st with command := 0, ch := 0, ptr := 0, rtcPtr := 0 }
  ({ c.1 with dirState := DirStreamState.idle, dirByteCounter := 0 }, c.2)

/-- The size captured at the end of the name phase:
`dirList_currentEntry.isDirectory() ? 0 : dirList_currentEntry.size()`
(`size()` of an invalid File returns 0). -/
def entrySizeOf (e : Option DirEntry) : Nat :=
  match e with
  | some e => if e.isDir then 0 else e.size % 4294967296
  | none => 0

/-- `DataHostRead()`: produce one response byte into the data register,
dispatched on `command`; returns the new state and the library calls made. -/
def DataHostRead (env : Env) (st : MState) : MState × List FSCall :=
  if st.command = 82 then  -- 'R': myFile.read(); -1 (= 0xFF as a byte) when invalid
    ({ st with sdata := if st.myFileOpen then env.fileReadByte % 256 else 255 },
     [FSCall.fileRead])
  else if st.command = 69 then  -- 'E': SD.exists(Filename)
    ({ st with sdata := if env.existsRes then 1 else 0 }, [FSCall.sdExists])
  else if st.command = 75 then  -- 'K': open probe, isDirectory, close
    ({ st with sdata := if env.probeOk && env.probeIsDir then 1 else 0 },
     [FSCall.probeOpen] ++ (if env.probeOk then [FSCall.probeClose] else []))
  else if st.command = 76 then  -- 'L': directory-listing stream
    match st.dirState with
    | DirStreamState.idle =>
        if env.dirOpenOk && env.dirIsDir then
          match env.dirEntries with
          | [] =>  -- directory empty: close it, emit end marker, stay idle
              ({ st with sdata := 255, dirOpen := false, dirEntry := none, ptr := 0 },
               [FSCall.openDir, FSCall.openNext, FSCall.closeDir])
          | e :: rest =>  -- first entry: emit its type, capture its name
              ({ st with sdata := if e.isDir then 68 else 70,
                         dirNameBuf := captureBuf e.name,
                         dirState := DirStreamState.sendName, dirByteCounter := 0,
                         dirOpen := true, dirEntry := some e, dirRemaining := rest,
                         ptr := 1 },
               [FSCall.openDir, FSCall.openNext])
        else  -- could not open, or not a directory
          ({ st with sdata := 255, dirOpen := false, ptr := 0 },
           [FSCall.openDir] ++ (if env.dirOpenOk then [FSCall.closeDir] else []))
    | DirStreamState.sendName =>
        if st.dirByteCounter < strlenBuf st.dirNameBuf then
          ({ st with sdata := st.dirNameBuf.getD st.dirByteCounter 0,
                     dirByteCounter := st.dirByteCounter + 1, ptr := 1 }, [])
        else
          ({ st with sdata := 0, dirEntrySize := entrySizeOf st.dirEntry,
                     dirState := DirStreamState.sendSize, dirByteCounter := 0,
                     ptr := 1 }, [])
    | DirStreamState.sendSize =>
        let dataB := (st.dirEntrySize >>> (8 * st.dirByteCounter)) % 256
        if st.dirByteCounter + 1 ≥ 4 then
          match st.dirRemaining with
          | e :: rest =>  -- close entry, next entry exists
              ({ st with sdata := dataB, dirByteCounter := st.dirByteCounter + 1,
                         dirEntry := some e, dirRemaining := rest,
                         dirState := DirStreamState.sendTypeNext, ptr := 1 },
               [FSCall.closeEntry, FSCall.openNext])
          | [] =>  -- close entry, no more entries: close directory
              ({ st with sdata := dataB, dirByteCounter := st.dirByteCounter + 1,
                         dirEntry := none, dirOpen := false,
                         dirState := DirStreamState.sendEnd, ptr := 1 },
               [FSCall.closeEntry, FSCall.openNext, FSCall.closeDir])
        else
          ({ st with sdata := dataB, dirByteCounter := st.dirByteCounter + 1,
                     ptr := 1 }, [])
    | DirStreamState.sendTypeNext =>
        match st.dirEntry with
        | some e =>
            ({ st with sdata := if e.isDir then 68 else 70,
                       dirNameBuf := captureBuf e.name,
                       dirState := DirStreamState.sendName, dirByteCounter := 0,
                       ptr := 1 }, [])
        | none =>  -- unreachable in real traces: invalid File is not a directory
            ({ st with sdata := 70, dirNameBuf := captureBuf [],
                       dirState := DirStreamState.sendName, dirByteCounter := 0,
                       ptr := 1 }, [])
    | DirStreamState.sendEnd =>
        ({ st with sdata := 255, dirState := DirStreamState.idle, ptr := 0 }, [])
  else if st.command = 77 then  -- 'M': SD.mkdir(Filename)
    ({ st with sdata := if env.mkdirRes then 1 else 0 }, [FSCall.mkdir])
  else if st.command = 81 then  -- 'Q': card.init, then card.type (SDATA untouched on failure)
    (if env.cardInitOk then { st with sdata := env.cardType % 256 } else st,
     [FSCall.cardInit])
  else if st.command = 86 then  -- 'V': volume info, 10-byte sequence
    if st.ptr = 0 then
      if env.volInitOk then
        ({ st with volFatType := env.fatType % 256,
                   volBlocks := env.blocksPerCluster % 256,
                   volClusters := env.clusterCount % 4294967296,
                   sdata := 1, ptr := 1 }, [FSCall.volInit])
      else
        ({ st with sdata := 255, ptr := -1 }, [FSCall.volInit])
    else if st.ptr = 1 then
      ({ st with sdata := st.volFatType, ptr := 2 }, [])
    else if 2 ≤ st.ptr ∧ st.ptr ≤ 5 then
      ({ st with sdata := (st.volBlocks >>> (8 * (st.ptr - 2).toNat)) % 256,
                 ptr := st.ptr + 1 }, [])
    else if 6 ≤ st.ptr ∧ st.ptr ≤ 9 then
      ({ st with sdata := (st.volClusters >>> (8 * (st.ptr - 6).toNat)) % 256,
                 ptr := st.ptr + 1 }, [])
    else
      ({ st with sdata := 0 }, [])
  else if st.command = 68 then  -- 'D': SD.rmdir(Filename)
    ({ st with sdata := if env.rmdirRes then 1 else 0 }, [FSCall.rmdir])
  else if st.command = 88 then  -- 'X': SD.remove(Filename)
    ({ st with sdata := if env.removeRes then 1 else 0 }, [FSCall.remove])
  else if st.command = 83 then  -- 'S': 4-byte big-endian file size
    if st.ptr < 4 then
      let st1 := if st.ptr = 0
                 then { st with filesize := if st.myFileOpen
                                            then env.fileSize % 4294967296 else 0 }
                 else st
      ({ st1 with sdata := (st1.filesize >>> (8 * (3 - st.ptr).toNat)) % 256,
                  ptr := st.ptr + 1 },
       if st.ptr = 0 then [FSCall.fileSizeQ] else [])
    else
      ({ st with sdata := 0 }, [])
  else  -- any other / no active command
    ({ st with sdata := 0 }, [])

/-- Result of `DataHostWrite`: the ACK/NACK decision, the new state, the
library calls made, and the `Filename[]` indices written (so that an
out-of-bounds store can be observed). -/
structure WOut where
  ack   : Bool
  st    : MState
  calls : List FSCall
  fnW   : List Nat
  deriving DecidableEq, Repr

/-- Common tail of the W/R/S/A command-byte branch: ACK when the file
opened, otherwise clear `command` and NACK. -/
def finishOpen (st : MState) (calls : List FSCall) : WOut :=
  if st.myFileOpen then ⟨true, st, calls, []⟩
  else ⟨false, { st with command := 0 }, calls, []⟩

/-- `DataHostWrite()` for the received byte `d` (already a byte, 0..255). -/
def DataHostWrite (env : Env) (st : MState) (d : Nat) : WOut :=
  if st.command = 0 then  -- first byte after address match: the command byte
    let st1 : MState := { st with command := d, ptr := 0, ch := 0, rtcPtr := 0 }
    if d = 81 ∨ d = 86 ∨ d = 75 ∨ d = 77 ∨ d = 68 ∨ d = 88 ∨ d = 76 ∨ d = 69 ∨
       d = 67 ∨ d = 70 then
      ⟨true, st1, [], []⟩
    else if d = 87 then  -- 'W': open create-or-truncate
      finishOpen { st1 with myFileOpen := env.openOkW } [FSCall.openW]
    else if d = 82 ∨ d = 83 then  -- 'R' / 'S': open read-only
      finishOpen { st1 with myFileOpen := env.openOkR } [FSCall.openR]
    else if d = 65 then  -- 'A': open create-or-append
      finishOpen { st1 with myFileOpen := env.openOkA } [FSCall.openA]
    else  -- unknown command
      ⟨false, { st1 with command := 0 }, [], []⟩
  else  -- subsequent bytes: data for the current command
    if st.command = 70 then  -- 'F': filename bytes
      if st.ch < 64 then
        ⟨true, { st with filename := (st.filename.set st.ch d).set (st.ch + 1) 0,
                         ch := st.ch + 1 },
         [], [st.ch, st.ch + 1]⟩
      else
        ⟨false, st, [], []⟩
    else if st.command = 87 ∨ st.command = 65 then  -- 'W' / 'A': file data
      if st.myFileOpen then ⟨true, st, [FSCall.fileWrite d], []⟩
      else ⟨false, st, [], []⟩
    else if st.command = 67 then  -- 'C': clock bytes, at most 6
      if st.rtcPtr < 6 then
        ⟨true, { st with rtcBuffer := st.rtcBuffer.set st.rtcPtr d,
                         rtcPtr := st.rtcPtr + 1 }, [], []⟩
      else
        ⟨false, st, [], []⟩
    else
      ⟨false, st, [], []⟩

/-- The year reconstruction of `Stop()`: YY below 80 means 2000+YY,
otherwise 1900+YY. -/
def rtcYear (buf : List Nat) : Nat :=
  if buf.getD 0 0 < 80 then 2000 + buf.getD 0 0 else 1900 + buf.getD 0 0

/-- The range validation of `Stop()` over the received clock bytes
(buffer layout YY MM DD HH MM SS). -/
def rtcValid (buf : List Nat) : Prop :=
  1 ≤ buf.getD 1 0 ∧ buf.getD 1 0 ≤ 12 ∧ 1 ≤ buf.getD 2 0 ∧ buf.getD 2 0 ≤ 31 ∧
  buf.getD 3 0 ≤ 23 ∧ buf.getD 4 0 ≤ 59 ∧ buf.getD 5 0 ≤ 59 ∧
  1980 ≤ rtcYear buf

instance (buf : List Nat) : Decidable (rtcValid buf) := by
  unfold rtcValid; infer_instance

/-- The clock-commit stage of `Stop()`: when the active command is 'C' with
exactly 6 received bytes and the values validate, copy them into the
process-wide clock. -/
def stopClock (st : MState) : MState :=
  if st.command = 67 ∧ st.rtcPtr = 6 then
    if rtcValid st.rtcBuffer then
      { st with currentYear := rtcYear st.rtcBuffer,
                currentMonth := st.rtcBuffer.getD 1 0,
                currentDay := st.rtcBuffer.getD 2 0,
                currentHour := st.rtcBuffer.getD 3 0,
                currentMinute := st.rtcBuffer.getD 4 0,
                currentSecond := st.rtcBuffer.getD 5 0 }
    else st
  else st

/-- The file-close stage of `Stop()`: close `myFile` when it is open and
the active command is one of W/R/A/S. -/
def stopFile (st : MState) : MState × List FSCall :=
  if st.myFileOpen ∧ (st.command = 87 ∨ st.command = 82 ∨ st.command = 65 ∨
                      st.command = 83) then
    ({ st with myFileOpen := false }, [FSCall.closeFile])
  else (st, [])

/-- `Stop()`: clear `checknack`; commit the clock when the active command is
'C' with exactly 6 bytes and the values validate; close `myFile` when the
active command is one of W/R/A/S; tear down the listing handles; reset the
per-transaction state. -/
def Stop (st : MState) : MState × List FSCall :=
  let a := stopClock { st with checknack := false }
  let b := stopFile a
  let c := closeListing b.1
  ({ c.1 with dirState := DirStreamState.idle, dirByteCounter := 0,
              command := 0, ch := 0, ptr := 0, rtcPtr := 0 },
   b.2 ++ c.2)

/-- The abstracted bus events delivered by the TWI peripheral.  For a
read-data event, `rxack` is the RXACK flag: the host NACKed the previous
response byte. -/
inductive Event where
  | addrWrite
  | addrRead
  | byteWritten (b : Nat)
  | byteReadReq (rxack : Bool)
  | stop
  deriving DecidableEq, Repr

/-- Result of one ISR invocation: new state, library calls, `Filename[]`
indices written, the response byte placed on the bus (none for a skipped
phantom request or a non-read event), and the ACK/NACK sent (for address
and write events). -/
structure StepOut where
  st    : MState
  calls : List FSCall
  fnW   : List Nat
  byte  : Option Nat
  ack   : Option Bool
  deriving DecidableEq, Repr

/-- `ISR(TWI0_TWIS_vect)`: dispatch one bus event.  A write-data event first
latches the received byte into the data register (the C code reads
`TWI0.SDATA`); a read-data event with RXACK set while `checknack` holds is
the phantom request and only clears the flag. -/
def isrStep (env : Env) (st : MState) : Event → StepOut
  | Event.addrWrite =>
      ⟨(AddressHostWrite st).1, (AddressHostWrite st).2, [], none, some true⟩
  | Event.addrRead =>
      ⟨AddressHostRead st, [], [], none, some true⟩
  | Event.byteWritten b =>
      let o := DataHostWrite env { st with sdata := b % 256 } (b % 256)
      ⟨o.st, o.calls, o.fnW, none, some o.ack⟩
  | Event.byteReadReq rxack =>
      if rxack ∧ st.checknack then
        ⟨{ st with checknack := false }, [], [], none, none⟩
      else
        ⟨{ (DataHostRead env st).1 with checknack := true },
         (DataHostRead env st).2, [], some (DataHostRead env st).1.sdata, none⟩
  | Event.stop =>
      ⟨(Stop st).1, (Stop st).2, [], none, none⟩

/-- Accumulated result of running a sequence of bus events. -/
structure RunOut where
  st    : MState
  calls : List FSCall
  fnW   : List Nat
  bytes : List Nat
  acks  : List Bool
  deriving DecidableEq, Repr

/-- Run the ISR over a list of bus events, accumulating calls, written
filename indices, response bytes, and ACK decisions. -/
def run (env : Env) : MState → List Event → RunOut
  | st, [] => ⟨st, [], [], [], []⟩
  | st, e :: es =>
      let o := isrStep env st e
      let r := run env o.st es
      ⟨r.st, o.calls ++ r.calls, o.fnW ++ r.fnW, o.byte.toList ++ r.bytes,
       o.ack.toList ++ r.acks⟩

/-- The processor's state at boot (C globals zero-initialised, clock at the
default epoch 2025-01-01 00:00:00). -/
def initState : MState :=
  { command := 0, ch := 0, ptr := 0, checknack := false, sdata := 0,
    filename := List.replicate 64 0, rtcBuffer := List.replicate 6 0, rtcPtr := 0,
    currentYear := 2025, currentMonth := 1, currentDay := 1,
    currentHour := 0, currentMinute := 0, currentSecond := 0,
    myFileOpen := false, filesize := 0,
    volFatType := 0, volBlocks := 0, volClusters := 0,
    dirState := DirStreamState.idle, dirByteCounter := 0, dirNameBuf := [],
    dirEntrySize := 0, dirOpen := false, dirEntry := none, dirRemaining := [] }

/-- An oracle for concrete witnesses: every external call succeeds. -/
def envOk : Env :=
  { existsRes := true, openOkW := true, openOkR := true, openOkA := true,
    probeOk := true, probeIsDir := true,
    mkdirRes := true, rmdirRes := true, removeRes := true,
    cardInitOk := true, cardType := 3,
    volInitOk := true, fatType := 32, blocksPerCluster := 64,
    clusterCount := 1000000,
    dirOpenOk := true, dirIsDir := true,
    dirEntries := [], fileSize := 258, fileReadByte := 65 }

/-- The six clock fields of a state, as one tuple. -/
def clockOf (st : MState) : Nat × Nat × Nat × Nat × Nat × Nat :=
  (st.currentYear, st.currentMonth, st.currentDay,
   st.currentHour, st.currentMinute, st.currentSecond)

/-- Two-digit-year expansion, following the spec's words:
year<80 gives 2000+year, otherwise 1900+year. -/
def specYearExpand (yy : Nat) : Nat := if yy < 80 then 2000 + yy else 1900 + yy

/-- Validity of the six received clock bytes, following the spec's words:
month 1-12, day 1-31, hour at most 23, minute and second at most 59, and
the expanded year at least 1980. -/
def specClockOk (buf : List Nat) : Prop :=
  1 ≤ buf.getD 1 0 ∧ buf.getD 1 0 ≤ 12 ∧ 1 ≤ buf.getD 2 0 ∧ buf.getD 2 0 ≤ 31 ∧
  buf.getD 3 0 ≤ 23 ∧ buf.getD 4 0 ≤ 59 ∧ buf.getD 5 0 ≤ 59 ∧
  1980 ≤ specYearExpand (buf.getD 0 0)

instance (buf : List Nat) : Decidable (specClockOk buf) := by
  unfold specClockOk; infer_instance

/-- Events of an interrupted transaction: the host starts a 'W' write (the
file opens), then issues a new address-matched write and a stop without the
engine ever seeing a boundary that closes the file. -/
def interruptedWriteEvents : List Event :=
  [Event.addrWrite, Event.byteWritten 87, Event.addrWrite, Event.stop]

/-- Events sending 'F' and then 64 filename data bytes (63 of value 97 and
one of value 98): one byte more than the 63-character bound of the spec. -/
def fnameEvents : List Event :=
  Event.addrWrite :: Event.byteWritten 70 ::
    (List.replicate 63 (Event.byteWritten 97) ++ [Event.byteWritten 98])

/-- Events of an 'M' transaction in which the host acknowledges the first
response byte and requests a second one. -/
def mkdirTwiceEvents : List Event :=
  [Event.addrWrite, Event.byteWritten 77, Event.addrRead,
   Event.byteReadReq false, Event.byteReadReq false]

/-- A state about to receive a stop for a completed clock-set transaction:
6 bytes 24 07 1A 0A 1E 00 (2024-07-26 10:30:00) received. -/
def stClockW : MState :=
  { initState with command := 67, rtcPtr := 6,
                   rtcBuffer := [24, 7, 26, 10, 30, 0] }

/-- Big-endian byte sequence of a 32-bit value, following the spec's words:
most-significant byte first. -/
def specBE4 (n : Nat) : List Nat :=
  [(n >>> 24) % 256, (n >>> 16) % 256, (n >>> 8) % 256, n % 256]

/-- Little-endian byte sequence of a 32-bit value, following the spec's
words: least-significant byte first. -/
def le4 (n : Nat) : List Nat :=
  [n % 256, (n >>> 8) % 256, (n >>> 16) % 256, (n >>> 24) % 256]

/-- A state at the start of an 'S' response sequence with the file open. -/
def stS7 : MState :=
  { initState with command := 83, ptr := 0, myFileOpen := true }

/-- A state at the start of a 'V' response sequence. -/
def stV8 : MState :=
  { initState with command := 86, ptr := 0 }

/-- A state at the start of a 'V' response sequence whose cached FAT type
(stale, from boot-time or an earlier successful volume query) is 7. -/
def stVStale : MState :=
  { initState with command := 86, ptr := 0, volFatType := 7 }

/-- A state with the 'Q' command active. -/
def stQ9 : MState :=
  { initState with command := 81 }

/-- Spec-side type byte of a listed entry, following the spec's words:
'D' (68) for directories, 'F' (70) for files. -/
def specTypeByte (e : DirEntry) : Nat := if e.isDir then 68 else 70

/-- Spec-side byte block of one listed entry, following the spec's words:
the type byte, the entry's base name, a zero terminator, and 4 size bytes
little-endian (0 for directories). -/
def specEntryBytes (e : DirEntry) : List Nat :=
  specTypeByte e :: (afterLastSlash e.name ++
    0 :: le4 (if e.isDir then 0 else e.size))

/-- Spec-side stream of a whole directory listing, following the spec's
words: each entry's block in iteration order, then the 0xFF end marker. -/
def specListing (es : List DirEntry) : List Nat :=
  (es.map specEntryBytes).flatten ++ [255]

/-- Wellformedness of a directory entry for the listing claim: its base
name is 8.3-style (at most 12 characters, none of them a null byte) and
its size fits in 32 bits. -/
def WFEntry (e : DirEntry) : Prop :=
  (afterLastSlash e.name).length ≤ 12 ∧ (0 ∉ afterLastSlash e.name) ∧
  e.size < 4294967296

instance (e : DirEntry) : Decidable (WFEntry e) := by
  unfold WFEntry; infer_instance

/-- The bytes of a listing stream that follow the type byte of the current
entry: its captured name, the zero terminator, its 4 size bytes, and then
the blocks of the remaining entries, ending with the 0xFF marker. -/
def specTailBytes : DirEntry → List DirEntry → List Nat
  | e, [] => captureBuf e.name ++ 0 :: (le4 (entrySizeOf (some e)) ++ [255])
  | e, e' :: rs => captureBuf e.name ++
      0 :: (le4 (entrySizeOf (some e)) ++
        ((if e'.isDir then 68 else 70) :: specTailBytes e' rs))

/-- Sample directory entries for the listing witness: a file "A.TXT" of
size 258 and a directory "LOGS". -/
def sampleEntries : List DirEntry :=
  [⟨false, [65, 46, 84, 88, 84], 258⟩, ⟨true, [76, 79, 71, 83], 0⟩]

/-- An oracle serving the sample directory entries. -/
def envDir : Env := { envOk with dirEntries := sampleEntries }

/-- A state with the 'L' command active and the listing machine idle. -/
def stL6 : MState := { initState with command := 76 }

/-- An oracle whose directory open fails. -/
def envDirFail : Env := { envOk with dirOpenOk := false }

/-- An oracle whose volume initialisation fails. -/
def envVolFail : Env := { envOk with volInitOk := false }

/-- An oracle whose card probe fails. -/
def envCardFail : Env := { envOk with cardInitOk := false }

end I2CSD

namespace I2CSD

@[simp] theorem closeListing_fst_dirOpen (st : MState) :
    (closeListing st).1.dirOpen = false := by
  unfold closeListing; split_ifs <;> simp_all

theorem closeListing_fst_dirEntry (st : MState)
    (hinv : st.dirOpen = false → st.dirEntry = none) :
    (closeListing st).1.dirEntry = none := by
  unfold closeListing; split_ifs <;> simp_all

@[simp] theorem closeListing_fst_command (st : MState) :
    (closeListing st).1.command = st.command := by
  unfold closeListing; split_ifs <;> rfl

@[simp] theorem closeListing_fst_checknack (st : MState) :
    (closeListing st).1.checknack = st.checknack := by
  unfold closeListing; split_ifs <;> rfl

@[simp] theorem closeListing_fst_myFileOpen (st : MState) :
    (closeListing st).1.myFileOpen = st.myFileOpen := by
  unfold closeListing; split_ifs <;> rfl

theorem clockOf_closeListing (st : MState) :
    clockOf (closeListing st).1 = clockOf st := by
  unfold closeListing; split_ifs <;> rfl

@[simp] theorem stopClock_command (st : MState) :
    (stopClock st).command = st.command := by
  unfold stopClock; split_ifs <;> rfl

@[simp] theorem stopClock_rtcPtr (st : MState) :
    (stopClock st).rtcPtr = st.rtcPtr := by
  unfold stopClock; split_ifs <;> rfl

@[simp] theorem stopClock_rtcBuffer (st : MState) :
    (stopClock st).rtcBuffer = st.rtcBuffer := by
  unfold stopClock; split_ifs <;> rfl

@[simp] theorem stopClock_myFileOpen (st : MState) :
    (stopClock st).myFileOpen = st.myFileOpen := by
  unfold stopClock; split_ifs <;> rfl

@[simp] theorem stopClock_dirOpen (st : MState) :
    (stopClock st).dirOpen = st.dirOpen := by
  unfold stopClock; split_ifs <;> rfl

@[simp] theorem stopClock_dirEntry (st : MState) :
    (stopClock st).dirEntry = st.dirEntry := by
  unfold stopClock; split_ifs <;> rfl

@[simp] theorem stopClock_checknack (st : MState) :
    (stopClock st).checknack = st.checknack := by
  unfold stopClock; split_ifs <;> rfl

@[simp] theorem stopFile_fst_command (st : MState) :
    (stopFile st).1.command = st.command := by
  unfold stopFile; split_ifs <;> rfl

@[simp] theorem stopFile_fst_dirOpen (st : MState) :
    (stopFile st).1.dirOpen = st.dirOpen := by
  unfold stopFile; split_ifs <;> rfl

@[simp] theorem stopFile_fst_dirEntry (st : MState) :
    (stopFile st).1.dirEntry = st.dirEntry := by
  unfold stopFile; split_ifs <;> rfl

@[simp] theorem stopFile_fst_checknack (st : MState) :
    (stopFile st).1.checknack = st.checknack := by
  unfold stopFile; split_ifs <;> rfl

theorem clockOf_stopFile (st : MState) :
    clockOf (stopFile st).1 = clockOf st := by
  unfold stopFile; split_ifs <;> rfl

theorem stopFile_fst_myFileOpen_of (st : MState)
    (hc : st.command = 87 ∨ st.command = 82 ∨ st.command = 65 ∨
          st.command = 83) :
    (stopFile st).1.myFileOpen = false := by
  unfold stopFile; split_ifs <;> simp_all

theorem Stop_fst_dirOpen (st : MState) : (Stop st).1.dirOpen = false := by
  simp [Stop]

theorem Stop_fst_dirEntry (st : MState)
    (hinv : st.dirOpen = false → st.dirEntry = none) :
    (Stop st).1.dirEntry = none := by
  show (closeListing _).1.dirEntry = none
  apply closeListing_fst_dirEntry
  intro h0
  simp only [stopFile_fst_dirOpen, stopClock_dirOpen] at h0
  simp only [stopFile_fst_dirEntry, stopClock_dirEntry]
  exact hinv h0

theorem Stop_fst_myFileOpen (st : MState)
    (hc : st.command = 87 ∨ st.command = 82 ∨ st.command = 65 ∨
          st.command = 83) :
    (Stop st).1.myFileOpen = false := by
  show (closeListing _).1.myFileOpen = false
  rw [closeListing_fst_myFileOpen]
  apply stopFile_fst_myFileOpen_of
  simpa using hc

theorem Stop_fst_checknack (st : MState) : (Stop st).1.checknack = false := by
  simp [Stop]

theorem clockOf_Stop (st : MState) :
    clockOf (Stop st).1 =
      clockOf (stopClock { st with checknack := false }) := by
  rw [show clockOf (Stop st).1 =
        clockOf (closeListing
          (stopFile (stopClock { st with checknack := false })).1).1 from rfl,
      clockOf_closeListing, clockOf_stopFile]

theorem clockOf_stopClock (st : MState) :
    clockOf (stopClock st) =
      if st.command = 67 ∧ st.rtcPtr = 6 ∧ rtcValid st.rtcBuffer then
        (rtcYear st.rtcBuffer, st.rtcBuffer.getD 1 0, st.rtcBuffer.getD 2 0,
         st.rtcBuffer.getD 3 0, st.rtcBuffer.getD 4 0, st.rtcBuffer.getD 5 0)
      else clockOf st := by
  unfold stopClock clockOf
  split_ifs <;> simp_all

theorem rtcValid_iff_specClockOk (buf : List Nat) :
    rtcValid buf ↔ specClockOk buf := Iff.rfl

/-- C1 counterexample: the claim states that a new address-matched write
superseding an in-progress transaction, and a transaction stop, leave no
file handle open.  Concretely: after `addrWrite, 'W' (file opens),
addrWrite`, the superseding address-matched write has not closed the file
handle, and the following stop (whose active command is 0) does not close
it either: the handle survives both transaction boundaries. -/
theorem claim1_counterexample :
    (run envOk initState [Event.addrWrite, Event.byteWritten 87,
        Event.addrWrite]).st.myFileOpen = true ∧
    (run envOk initState interruptedWriteEvents).st.myFileOpen = true := by
  decide

/-- C1 amended: a transaction stop always releases the directory-listing
handles, and releases the open file handle whenever the command active at
the stop is one of W/R/A/S; a new address-matched write releases the
directory-listing handles but leaves the file handle exactly as it was
(an interrupted W/R/A/S transaction therefore leaks it).  The hypothesis is
the engine's invariant that a closed listing has no entry handle. -/
theorem claim1_amended (st : MState)
    (hinv : st.dirOpen = false → st.dirEntry = none) :
    ((Stop st).1.dirOpen = false ∧ (Stop st).1.dirEntry = none ∧
     ((st.command = 87 ∨ st.command = 82 ∨ st.command = 65 ∨ st.command = 83) →
        (Stop st).1.myFileOpen = false)) ∧
    ((AddressHostWrite st).1.dirOpen = false ∧
     (AddressHostWrite st).1.dirEntry = none ∧
     (AddressHostWrite st).1.myFileOpen = st.myFileOpen) := by
  refine ⟨⟨Stop_fst_dirOpen st, Stop_fst_dirEntry st hinv,
           fun hc => Stop_fst_myFileOpen st hc⟩, ?_, ?_, ?_⟩
  · simp [AddressHostWrite]
  · show (closeListing _).1.dirEntry = none
    apply closeListing_fst_dirEntry
    intro h0
    simp only [] at h0 ⊢
    exact hinv h0
  · simp [AddressHostWrite]

/-- C1 amended, witness at a concrete state. -/
theorem claim1_witness :
    (initState.dirOpen = false → initState.dirEntry = none) ∧
    (((Stop initState).1.dirOpen = false ∧ (Stop initState).1.dirEntry = none ∧
      ((initState.command = 87 ∨ initState.command = 82 ∨
        initState.command = 65 ∨ initState.command = 83) →
         (Stop initState).1.myFileOpen = false)) ∧
     ((AddressHostWrite initState).1.dirOpen = false ∧
      (AddressHostWrite initState).1.dirEntry = none ∧
      (AddressHostWrite initState).1.myFileOpen = initState.myFileOpen)) :=
  ⟨by decide, claim1_amended initState (by decide)⟩

/-- C2: at transaction stop, the clock is committed exactly when the active
command is 'C', exactly 6 bytes were accepted, and the bytes validate
(month 1-12, day 1-31, hour at most 23, minute and second at most 59,
expanded year at least 1980); otherwise all six clock fields keep their
prior values. -/
theorem claim2_clock_commit (st : MState) :
    ((st.command = 67 ∧ st.rtcPtr = 6 ∧ specClockOk st.rtcBuffer) →
       clockOf (Stop st).1 =
         (specYearExpand (st.rtcBuffer.getD 0 0), st.rtcBuffer.getD 1 0,
          st.rtcBuffer.getD 2 0, st.rtcBuffer.getD 3 0,
          st.rtcBuffer.getD 4 0, st.rtcBuffer.getD 5 0)) ∧
    (¬(st.command = 67 ∧ st.rtcPtr = 6 ∧ specClockOk st.rtcBuffer) →
       clockOf (Stop st).1 = clockOf st) := by
  constructor
  · rintro ⟨hc, hp, hv⟩
    rw [clockOf_Stop, clockOf_stopClock, if_pos]
    · rfl
    · exact ⟨hc, hp, (rtcValid_iff_specClockOk _).mpr hv⟩
  · intro hn
    rw [clockOf_Stop, clockOf_stopClock, if_neg]
    · rfl
    · intro hcon
      exact hn ⟨hcon.1, hcon.2.1, (rtcValid_iff_specClockOk _).mp hcon.2.2⟩

/-- C2 witness: committing 24 07 1A 0A 1E 00 at stop sets the clock to
2024-07-26 10:30:00. -/
theorem claim2_witness :
    (stClockW.command = 67 ∧ stClockW.rtcPtr = 6 ∧
       specClockOk stClockW.rtcBuffer) ∧
    clockOf (Stop stClockW).1 = (2024, 7, 26, 10, 30, 0) :=
  ⟨by decide, (claim2_clock_commit stClockW).1 (by decide)⟩

/-- C3: the code accepts a 64th filename character (the claim allows at
most 63) and, when storing its null terminator, writes `Filename[64]`,
one element past the end of the 64-byte buffer: all 66 bus events of
`fnameEvents` are acknowledged, index 64 is among the written indices, and
the filename cursor reaches 64. -/
theorem claim3_overflow :
    (run envOk initState fnameEvents).acks = List.replicate 66 true ∧
    64 ∈ (run envOk initState fnameEvents).fnW ∧
    (run envOk initState fnameEvents).st.ch = 64 := by
  decide

/-- C4 counterexample: the claim states the one-shot operation is never
invoked again by subsequent read-byte requests of the same transaction,
but a host that acknowledges the first response byte of an 'M' transaction
and requests a second byte causes `SD.mkdir` to be invoked twice. -/
theorem claim4_counterexample :
    (run envOk initState mkdirTwiceEvents).calls.count FSCall.mkdir = 2 := by
  decide

/-- C4 amended: the one-shot operation (mkdir/rmdir/remove) is invoked on
the first read-byte request and again on every further acknowledged
read-byte request; the single phantom request raised after the host NACKs
a response byte does not re-invoke it, so a transaction in which the host
reads exactly one byte (and NACKs it) invokes the operation exactly once. -/
theorem claim4_amended (env : Env) (st : MState) (r : Bool)
    (hn : st.checknack = false) :
    (run env st [Event.addrWrite, Event.byteWritten 77, Event.addrRead,
       Event.byteReadReq r, Event.byteReadReq true,
       Event.stop]).calls.count FSCall.mkdir = 1 ∧
    (run env st [Event.addrWrite, Event.byteWritten 68, Event.addrRead,
       Event.byteReadReq r, Event.byteReadReq true,
       Event.stop]).calls.count FSCall.rmdir = 1 ∧
    (run env st [Event.addrWrite, Event.byteWritten 88, Event.addrRead,
       Event.byteReadReq r, Event.byteReadReq true,
       Event.stop]).calls.count FSCall.remove = 1 := by
  cases hdo : st.dirOpen <;> cases hde : st.dirEntry <;>
    refine ⟨?_, ?_, ?_⟩ <;>
      simp [run, isrStep, AddressHostWrite, AddressHostRead, DataHostWrite,
            DataHostRead, Stop, stopClock, stopFile, closeListing, hn, hdo,
            hde, List.count_append, List.count_cons]

/-- C4 amended, witness at a concrete state. -/
theorem claim4_witness :
    initState.checknack = false ∧
    ((run envOk initState [Event.addrWrite, Event.byteWritten 77,
        Event.addrRead, Event.byteReadReq false, Event.byteReadReq true,
        Event.stop]).calls.count FSCall.mkdir = 1 ∧
     (run envOk initState [Event.addrWrite, Event.byteWritten 68,
        Event.addrRead, Event.byteReadReq false, Event.byteReadReq true,
        Event.stop]).calls.count FSCall.rmdir = 1 ∧
     (run envOk initState [Event.addrWrite, Event.byteWritten 88,
        Event.addrRead, Event.byteReadReq false, Event.byteReadReq true,
        Event.stop]).calls.count FSCall.remove = 1) :=
  ⟨by decide, claim4_amended envOk initState false (by decide)⟩

/-- C5: with the NACK flag set, a read request flagged RXACK is the phantom
request: the engine only clears the flag, producing no byte, no library
call, and no other state change; any served read request sets the flag and
produces a byte; a transaction stop clears the flag. -/
theorem claim5_nack_phantom (env : Env) (st : MState) (rxack : Bool) :
    (st.checknack = true →
       isrStep env st (Event.byteReadReq true) =
         ⟨{ st with checknack := false }, [], [], none, none⟩) ∧
    (rxack = false ∨ st.checknack = false →
       (isrStep env st (Event.byteReadReq rxack)).st.checknack = true ∧
       (isrStep env st (Event.byteReadReq rxack)).byte.isSome = true) ∧
    (isrStep env st Event.stop).st.checknack = false := by
  refine ⟨?_, ?_, ?_⟩
  · intro h
    simp [isrStep, h]
  · intro h
    rcases h with h | h <;> simp [isrStep, h]
  · simpa [isrStep] using Stop_fst_checknack st

/-- C5 witness at a concrete state with the flag set. -/
theorem claim5_witness :
    (stClockW.checknack = true → isrStep envOk stClockW
        (Event.byteReadReq true) =
        ⟨{ stClockW with checknack := false }, [], [], none, none⟩) ∧
    ((false = false ∨ stClockW.checknack = false) →
       (isrStep envOk stClockW (Event.byteReadReq false)).st.checknack = true ∧
       (isrStep envOk stClockW (Event.byteReadReq false)).byte.isSome = true) ∧
    (isrStep envOk stClockW Event.stop).st.checknack = false :=
  claim5_nack_phantom envOk stClockW false

/-- C10: with the 'C' command active and 6 bytes already received, a
further written byte is NACKed and leaves the clock buffer and its count
unchanged, and a transaction carrying such an extra byte commits the same
clock at stop as one that stopped right after the 6th byte. -/
theorem claim10_extra_clock_bytes (env : Env) (st : MState) (b : Nat)
    (hc : st.command = 67) (hp : st.rtcPtr = 6) :
    (isrStep env st (Event.byteWritten b)).ack = some false ∧
    (isrStep env st (Event.byteWritten b)).st.rtcBuffer = st.rtcBuffer ∧
    (isrStep env st (Event.byteWritten b)).st.rtcPtr = 6 ∧
    clockOf (run env st [Event.byteWritten b, Event.stop]).st =
      clockOf (run env st [Event.stop]).st := by
  have h1 : (run env st [Event.byteWritten b, Event.stop]).st =
      (Stop { st with sdata := b % 256 }).1 := by
    simp [run, isrStep, DataHostWrite, hc, hp]
  have h2 : (run env st [Event.stop]).st = (Stop st).1 := by
    simp [run, isrStep]
  refine ⟨?_, ?_, ?_, ?_⟩
  · simp [isrStep, DataHostWrite, hc, hp]
  · simp [isrStep, DataHostWrite, hc, hp]
  · simp [isrStep, DataHostWrite, hc, hp]
  · rw [h1, h2, clockOf_Stop, clockOf_Stop, clockOf_stopClock,
        clockOf_stopClock]
    simp [clockOf]

theorem run_append (env : Env) (as bs : List Event) (st : MState) :
    run env st (as ++ bs) =
      ⟨(run env (run env st as).st bs).st,
       (run env st as).calls ++ (run env (run env st as).st bs).calls,
       (run env st as).fnW ++ (run env (run env st as).st bs).fnW,
       (run env st as).bytes ++ (run env (run env st as).st bs).bytes,
       (run env st as).acks ++ (run env (run env st as).st bs).acks⟩ := by
  induction as generalizing st with
  | nil => simp [run]
  | cons e es ih => simp [run, ih]

theorem runS_zeros (env : Env) (st : MState) (n : Nat)
    (hc : st.command = 83) (hp : ¬ st.ptr < 4) :
    (run env st (List.replicate n (Event.byteReadReq false))).bytes =
      List.replicate n 0 ∧
    (run env st (List.replicate n (Event.byteReadReq false))).calls = [] := by
  induction n generalizing st with
  | zero => simp [run]
  | succ n ih =>
      have h := ih { st with sdata := 0, checknack := true }
        (by simpa using hc) (by simpa using hp)
      rw [hc] at h
      simp [List.replicate_succ, run, isrStep, DataHostRead, hc, hp, h.1, h.2]

theorem runV_zeros (env : Env) (st : MState) (n : Nat)
    (hc : st.command = 86)
    (hp : ¬ st.ptr = 0 ∧ ¬ st.ptr = 1 ∧ ¬(2 ≤ st.ptr ∧ st.ptr ≤ 5) ∧
          ¬(6 ≤ st.ptr ∧ st.ptr ≤ 9)) :
    (run env st (List.replicate n (Event.byteReadReq false))).bytes =
      List.replicate n 0 ∧
    (run env st (List.replicate n (Event.byteReadReq false))).calls = [] := by
  induction n generalizing st with
  | zero => simp [run]
  | succ n ih =>
      have h := ih { st with sdata := 0, checknack := true }
        (by simpa using hc)
        (by simpa using hp)
      rw [hc] at h
      simp [List.replicate_succ, run, isrStep, DataHostRead, hc, hp.1, hp.2.1,
            hp.2.2.1, hp.2.2.2, h.1, h.2]

/-- C7: for an 'S' response sequence starting at cursor 0 with the file
open, the size is fetched exactly once (on the cursor-0 request); the
first four response bytes are the 32-bit size big-endian (most-significant
byte first), and every further request returns 0. -/
theorem claim7_filesize_bigendian (env : Env) (st : MState) (n : Nat)
    (hc : st.command = 83) (hp : st.ptr = 0) (ho : st.myFileOpen = true) :
    (run env st (List.replicate (4 + n) (Event.byteReadReq false))).bytes =
      specBE4 (env.fileSize % 4294967296) ++ List.replicate n 0 ∧
    (run env st (List.replicate (4 + n)
        (Event.byteReadReq false))).calls.count FSCall.fileSizeQ = 1 := by
  have hrep : List.replicate (4 + n) (Event.byteReadReq false) =
      [Event.byteReadReq false, Event.byteReadReq false,
       Event.byteReadReq false, Event.byteReadReq false] ++
      List.replicate n (Event.byteReadReq false) := by
    rw [show (4 + n) = n + 4 from by omega]
    simp [List.replicate_add, List.replicate_succ]
  rw [hrep, run_append]
  have h83 : (run env st [Event.byteReadReq false, Event.byteReadReq false,
      Event.byteReadReq false, Event.byteReadReq false]).st.command = 83 := by
    simp [run, isrStep, DataHostRead, hc, hp, ho]
  have hlt : ¬ (run env st [Event.byteReadReq false, Event.byteReadReq false,
      Event.byteReadReq false, Event.byteReadReq false]).st.ptr < 4 := by
    simp [run, isrStep, DataHostRead, hc, hp, ho]
  have hz := runS_zeros env _ n h83 hlt
  constructor
  · show _ ++ _ = _
    rw [hz.1]
    simp [run, isrStep, DataHostRead, hc, hp, ho, specBE4]
  · show List.count _ (_ ++ _) = 1
    rw [List.count_append, hz.2]
    simp [run, isrStep, DataHostRead, hc, hp, ho]

/-- C7 witness: size 258 (0x00000102) is streamed as 0,0,1,2 then zeros,
with one size query. -/
theorem claim7_witness :
    (stS7.command = 83 ∧ stS7.ptr = 0 ∧ stS7.myFileOpen = true) ∧
    ((run envOk stS7 (List.replicate (4 + 2)
        (Event.byteReadReq false))).bytes =
       specBE4 (envOk.fileSize % 4294967296) ++ List.replicate 2 0 ∧
     (run envOk stS7 (List.replicate (4 + 2)
        (Event.byteReadReq false))).calls.count FSCall.fileSizeQ = 1) :=
  ⟨⟨by decide, by decide, by decide⟩,
   claim7_filesize_bigendian envOk stS7 2 (by decide) (by decide) (by decide)⟩

/-- C8 counterexample: the claim states that after a failure status the
remaining requested bytes are whatever the cache holds; with a stale
cached FAT type of 7 and a failing volume probe, the second requested
byte is 0, not the cached 7. -/
theorem claim8_counterexample :
    (run envVolFail stVStale [Event.byteReadReq false,
       Event.byteReadReq false]).bytes = [255, 0] ∧
    stVStale.volFatType = 7 := by
  decide

/-- C8 amended: the status is computed (and the volume probed exactly
once) on the first read-byte request; on success the 10 bytes are status 1,
FAT type, blocksPerCluster little-endian, clusterCount little-endian, and
requests beyond the 10th return 0; on failure the status byte is 0xFF and
every subsequent request of the sequence returns 0. -/
theorem claim8_amended (env : Env) (st : MState) (n : Nat)
    (hc : st.command = 86) (hp : st.ptr = 0) :
    (env.volInitOk = true →
       (run env st (List.replicate (10 + n) (Event.byteReadReq false))).bytes =
         1 :: (env.fatType % 256) ::
           (le4 (env.blocksPerCluster % 256) ++
            le4 (env.clusterCount % 4294967296) ++ List.replicate n 0) ∧
       (run env st (List.replicate (10 + n)
          (Event.byteReadReq false))).calls.count FSCall.volInit = 1) ∧
    (env.volInitOk = false →
       (run env st (List.replicate (1 + n) (Event.byteReadReq false))).bytes =
         255 :: List.replicate n 0 ∧
       (run env st (List.replicate (1 + n)
          (Event.byteReadReq false))).calls.count FSCall.volInit = 1) := by
  constructor
  · intro hv
    have hrep : List.replicate (10 + n) (Event.byteReadReq false) =
        List.replicate 10 (Event.byteReadReq false) ++
        List.replicate n (Event.byteReadReq false) := by
      rw [show (10 + n) = n + 10 from by omega]
      simp [List.replicate_add, List.replicate_succ]
    have h10 : List.replicate 10 (Event.byteReadReq false) =
        [Event.byteReadReq false, Event.byteReadReq false,
         Event.byteReadReq false, Event.byteReadReq false,
         Event.byteReadReq false, Event.byteReadReq false,
         Event.byteReadReq false, Event.byteReadReq false,
         Event.byteReadReq false, Event.byteReadReq false] := rfl
    rw [hrep, h10, run_append]
    have h86 : (run env st [Event.byteReadReq false, Event.byteReadReq false,
        Event.byteReadReq false, Event.byteReadReq false,
        Event.byteReadReq false, Event.byteReadReq false,
        Event.byteReadReq false, Event.byteReadReq false,
        Event.byteReadReq false, Event.byteReadReq false]).st.command = 86 := by
      simp [run, isrStep, DataHostRead, hc, hp, hv]
    have hptr : (run env st [Event.byteReadReq false, Event.byteReadReq false,
        Event.byteReadReq false, Event.byteReadReq false,
        Event.byteReadReq false, Event.byteReadReq false,
        Event.byteReadReq false, Event.byteReadReq false,
        Event.byteReadReq false, Event.byteReadReq false]).st.ptr = 10 := by
      simp [run, isrStep, DataHostRead, hc, hp, hv]
    have hz := runV_zeros env _ n h86 (by rw [hptr]; refine ⟨by decide, by decide, ?_, ?_⟩ <;> decide)
    constructor
    · show _ ++ _ = _
      rw [hz.1]
      simp [run, isrStep, DataHostRead, hc, hp, hv, le4]
    · show List.count _ (_ ++ _) = 1
      rw [List.count_append, hz.2]
      simp [run, isrStep, DataHostRead, hc, hp, hv]
  · intro hv
    have hrep : List.replicate (1 + n) (Event.byteReadReq false) =
        [Event.byteReadReq false] ++
        List.replicate n (Event.byteReadReq false) := by
      rw [show (1 + n) = n + 1 from by omega]
      simp [List.replicate_add, List.replicate_succ]
    rw [hrep, run_append]
    have h86 : (run env st [Event.byteReadReq false]).st.command = 86 := by
      simp [run, isrStep, DataHostRead, hc, hp, hv]
    have hptr : (run env st [Event.byteReadReq false]).st.ptr = -1 := by
      simp [run, isrStep, DataHostRead, hc, hp, hv]
    have hz := runV_zeros env _ n h86 (by rw [hptr]; refine ⟨by decide, by decide, ?_, ?_⟩ <;> decide)
    constructor
    · show _ ++ _ = _
      rw [hz.1]
      simp [run, isrStep, DataHostRead, hc, hp, hv]
    · show List.count _ (_ ++ _) = 1
      rw [List.count_append, hz.2]
      simp [run, isrStep, DataHostRead, hc, hp, hv]

/-- C8 amended, witness at a successful volume probe. -/
theorem claim8_witness :
    (stV8.command = 86 ∧ stV8.ptr = 0 ∧ envOk.volInitOk = true) ∧
    ((run envOk stV8 (List.replicate (10 + 0)
        (Event.byteReadReq false))).bytes =
       1 :: (envOk.fatType % 256) ::
         (le4 (envOk.blocksPerCluster % 256) ++
          le4 (envOk.clusterCount % 4294967296) ++ List.replicate 0 0) ∧
     (run envOk stV8 (List.replicate (10 + 0)
        (Event.byteReadReq false))).calls.count FSCall.volInit = 1) :=
  ⟨⟨by decide, by decide, by decide⟩,
   (claim8_amended envOk stV8 0 (by decide) (by decide)).1 (by decide)⟩

/-- C9 counterexample: the claim states that when the probe fails the
produced byte is 0; with a failing probe, a 'Q' transaction transmits the
stale data register content, which still holds the command byte 'Q' (81). -/
theorem claim9_counterexample :
    (run envCardFail initState [Event.addrWrite, Event.byteWritten 81,
       Event.addrRead, Event.byteReadReq false]).bytes = [81] := by
  decide

/-- C9 amended: every served read-byte request of a 'Q' transaction
re-probes the card (one probe call per request, two requests give two
probes); when the probe succeeds the byte is the card type, and when it
fails no byte is written, so the stale data register content is
transmitted. -/
theorem claim9_amended (env : Env) (st : MState) (hc : st.command = 81) :
    ((DataHostRead env st).2 = [FSCall.cardInit] ∧
     (DataHostRead env st).1.sdata =
       (if env.cardInitOk then env.cardType % 256 else st.sdata)) ∧
    (run env st [Event.byteReadReq false,
       Event.byteReadReq false]).calls.count FSCall.cardInit = 2 := by
  cases hq : env.cardInitOk <;>
    refine ⟨⟨?_, ?_⟩, ?_⟩ <;>
      simp [run, isrStep, DataHostRead, hc, hq, List.count_append,
            List.count_cons]

/-- C9 amended, witness at a concrete state. -/
theorem claim9_witness :
    stQ9.command = 81 ∧
    (((DataHostRead envOk stQ9).2 = [FSCall.cardInit] ∧
      (DataHostRead envOk stQ9).1.sdata =
        (if envOk.cardInitOk then envOk.cardType % 256 else stQ9.sdata)) ∧
     (run envOk stQ9 [Event.byteReadReq false,
        Event.byteReadReq false]).calls.count FSCall.cardInit = 2) :=
  ⟨by decide, claim9_amended envOk stQ9 (by decide)⟩

theorem takeWhile_ne_zero_eq (l : List Nat) (h : ∀ c ∈ l, c ≠ 0) :
    l.takeWhile (fun c => c != 0) = l := by
  rw [List.takeWhile_eq_self_iff]
  intro x hx
  simpa using h x hx

theorem strlenBuf_no_zero (l : List Nat) (h : ∀ c ∈ l, c ≠ 0) :
    strlenBuf l = l.length := by
  unfold strlenBuf
  rw [takeWhile_ne_zero_eq l h]

theorem captureBuf_no_zero (nm : List Nat) : ∀ c ∈ captureBuf nm, c ≠ 0 := by
  intro c hc
  have h1 : c ∈ (afterLastSlash nm).takeWhile (fun c => c != 0) :=
    List.take_subset _ _ hc
  have h2 := List.mem_takeWhile_imp h1
  simpa using h2

theorem captureBuf_of_wf (nm : List Nat)
    (hlen : (afterLastSlash nm).length ≤ 12)
    (hz : 0 ∉ afterLastSlash nm) :
    captureBuf nm = afterLastSlash nm := by
  unfold captureBuf
  rw [takeWhile_ne_zero_eq _ (fun c hc h0 => hz (h0 ▸ hc)),
      List.take_of_length_le hlen]

theorem entrySizeOf_of_wf (e : DirEntry) (hs : e.size < 4294967296) :
    entrySizeOf (some e) = if e.isDir then 0 else e.size := by
  simp only [entrySizeOf]
  rw [Nat.mod_eq_of_lt hs]

theorem getD_append_cons (pre : List Nat) (c : Nat) (cs : List Nat) :
    (pre ++ c :: cs)[pre.length]?.getD 0 = c := by
  induction pre with
  | nil => simp
  | cons a as ih => simpa using ih

theorem run_rr (env : Env) (st : MState) (n : Nat) :
    run env st (List.replicate (n + 1) (Event.byteReadReq false)) =
      ⟨(run env { (DataHostRead env st).1 with checknack := true }
          (List.replicate n (Event.byteReadReq false))).st,
       (DataHostRead env st).2 ++
         (run env { (DataHostRead env st).1 with checknack := true }
           (List.replicate n (Event.byteReadReq false))).calls,
       (run env { (DataHostRead env st).1 with checknack := true }
         (List.replicate n (Event.byteReadReq false))).fnW,
       (DataHostRead env st).1.sdata ::
         (run env { (DataHostRead env st).1 with checknack := true }
           (List.replicate n (Event.byteReadReq false))).bytes,
       (run env { (DataHostRead env st).1 with checknack := true }
         (List.replicate n (Event.byteReadReq false))).acks⟩ := by
  simp [List.replicate_succ, run, isrStep]

theorem runL_name (env : Env) (suf : List Nat) :
    ∀ (st : MState) (pre : List Nat),
      st.command = 76 → st.dirState = DirStreamState.sendName →
      st.dirByteCounter = pre.length → st.dirNameBuf = pre ++ suf →
      (∀ c ∈ pre, c ≠ 0) → (∀ c ∈ suf, c ≠ 0) →
      run env st (List.replicate (suf.length + 1) (Event.byteReadReq false)) =
        ⟨{ st with dirState := DirStreamState.sendSize, dirByteCounter := 0,
                   dirEntrySize := entrySizeOf st.dirEntry, sdata := 0,
                   checknack := true, ptr := 1 }, [], [], suf ++ [0], []⟩ := by
  induction suf with
  | nil =>
      intro st pre hc hs hk hb hpre _
      have hnlt : ¬ st.dirByteCounter < strlenBuf st.dirNameBuf := by
        rw [hk, hb, List.append_nil, strlenBuf_no_zero pre hpre]
        omega
      rw [show (List.length ([] : List Nat)) + 1 = 0 + 1 from rfl, run_rr]
      have hstep : DataHostRead env st =
          ({ st with dirState := DirStreamState.sendSize, dirByteCounter := 0,
                     dirEntrySize := entrySizeOf st.dirEntry, sdata := 0,
                     ptr := 1 }, []) := by
        simp [DataHostRead, hc, hs, hnlt]
      rw [hstep]
      simp [run]
  | cons c cs ih =>
      intro st pre hc hs hk hb hpre hsuf
      have hlt : st.dirByteCounter < strlenBuf st.dirNameBuf := by
        rw [hk, hb, strlenBuf_no_zero]
        · simp
        · intro x hx
          rcases List.mem_append.mp hx with h | h
          · exact hpre x h
          · exact hsuf x h
      have hgetD : st.dirNameBuf[st.dirByteCounter]?.getD 0 = c := by
        rw [hb, hk]
        exact getD_append_cons pre c cs
      have hstep : DataHostRead env st =
          ({ st with dirByteCounter := st.dirByteCounter + 1, sdata := c,
                     ptr := 1 }, []) := by
        simp [DataHostRead, hc, hs, hlt, hgetD]
      rw [show (c :: cs).length + 1 = (cs.length + 1) + 1 from by simp, run_rr,
          hstep]
      have hih := ih { st with dirByteCounter := st.dirByteCounter + 1,
                               sdata := c, ptr := 1, checknack := true }
        (pre ++ [c]) (by simpa using hc) (by simpa using hs)
        (by simp [hk]) (by simp [hb])
        (by intro x hx
            rcases List.mem_append.mp hx with h | h
            · exact hpre x h
            · rw [List.mem_singleton.mp h]
              exact hsuf c (List.mem_cons_self c cs))
        (fun x hx => hsuf x (List.mem_cons_of_mem c hx))
      dsimp only
      rw [hih]
      simp

theorem runL_size_cons (env : Env) (st : MState) (e' : DirEntry)
    (rs : List DirEntry)
    (hc : st.command = 76) (hs : st.dirState = DirStreamState.sendSize)
    (hk : st.dirByteCounter = 0) (hrem : st.dirRemaining = e' :: rs) :
    run env st (List.replicate 4 (Event.byteReadReq false)) =
      ⟨{ st with dirState := DirStreamState.sendTypeNext, dirByteCounter := 4,
                 dirEntry := some e', dirRemaining := rs,
                 sdata := (st.dirEntrySize >>> 24) % 256, checknack := true,
                 ptr := 1 },
       [FSCall.closeEntry, FSCall.openNext], [], le4 st.dirEntrySize, []⟩ := by
  rw [show List.replicate 4 (Event.byteReadReq false) =
      [Event.byteReadReq false, Event.byteReadReq false,
       Event.byteReadReq false, Event.byteReadReq false] from rfl]
  simp [run, isrStep, DataHostRead, hc, hs, hk, hrem, le4]

theorem runL_size_nil (env : Env) (st : MState)
    (hc : st.command = 76) (hs : st.dirState = DirStreamState.sendSize)
    (hk : st.dirByteCounter = 0) (hrem : st.dirRemaining = []) :
    run env st (List.replicate 4 (Event.byteReadReq false)) =
      ⟨{ st with dirState := DirStreamState.sendEnd, dirByteCounter := 4,
                 dirEntry := none, dirOpen := false,
                 sdata := (st.dirEntrySize >>> 24) % 256, checknack := true,
                 ptr := 1 },
       [FSCall.closeEntry, FSCall.openNext, FSCall.closeDir], [],
       le4 st.dirEntrySize, []⟩ := by
  rw [show List.replicate 4 (Event.byteReadReq false) =
      [Event.byteReadReq false, Event.byteReadReq false,
       Event.byteReadReq false, Event.byteReadReq false] from rfl]
  simp [run, isrStep, DataHostRead, hc, hs, hk, hrem, le4]

theorem runL_typeNext (env : Env) (st : MState) (e : DirEntry)
    (hc : st.command = 76) (hs : st.dirState = DirStreamState.sendTypeNext)
    (he : st.dirEntry = some e) :
    run env st [Event.byteReadReq false] =
      ⟨{ st with dirState := DirStreamState.sendName, dirByteCounter := 0,
                 dirNameBuf := captureBuf e.name,
                 sdata := if e.isDir then 68 else 70, checknack := true,
                 ptr := 1 },
       [], [], [if e.isDir then 68 else 70], []⟩ := by
  cases hd : e.isDir <;> simp [run, isrStep, DataHostRead, hc, hs, he, hd]

theorem runL_sendEnd (env : Env) (st : MState)
    (hc : st.command = 76) (hs : st.dirState = DirStreamState.sendEnd) :
    run env st [Event.byteReadReq false] =
      ⟨{ st with dirState := DirStreamState.idle, sdata := 255,
                 checknack := true, ptr := 0 },
       [], [], [255], []⟩ := by
  simp [run, isrStep, DataHostRead, hc, hs]

theorem runL_tail (env : Env) :
    ∀ (rest : List DirEntry) (st : MState) (e : DirEntry),
      st.command = 76 → st.dirState = DirStreamState.sendName →
      st.dirByteCounter = 0 → st.dirNameBuf = captureBuf e.name →
      st.dirEntry = some e → st.dirRemaining = rest →
      ∃ (fin : MState) (cals : List FSCall),
        run env st (List.replicate (specTailBytes e rest).length
            (Event.byteReadReq false)) =
          ⟨fin, cals, [], specTailBytes e rest, []⟩ ∧
        fin.dirState = DirStreamState.idle ∧ fin.dirOpen = false ∧
        fin.dirEntry = none := by
  intro rest
  induction rest with
  | nil =>
      intro st e hc hs hk hb he hrem
      have hsplit : List.replicate (specTailBytes e []).length
            (Event.byteReadReq false) =
          List.replicate ((captureBuf e.name).length + 1)
            (Event.byteReadReq false) ++
          (List.replicate 4 (Event.byteReadReq false) ++
           List.replicate 1 (Event.byteReadReq false)) := by
        rw [← List.replicate_add, ← List.replicate_add]
        congr 1
        simp [specTailBytes, le4]
      have h1 := runL_name env (captureBuf e.name) st [] hc hs
        (by simpa using hk) (by simpa using hb) (by simp)
        (captureBuf_no_zero e.name)
      have h2 := runL_size_nil env
        { st with dirState := DirStreamState.sendSize, dirByteCounter := 0,
                  dirEntrySize := entrySizeOf st.dirEntry, sdata := 0,
                  checknack := true, ptr := 1 }
        (by simpa using hc) (by simp) (by simp) (by simpa using hrem)
      have h3 := runL_sendEnd env
        { st with dirState := DirStreamState.sendEnd, dirByteCounter := 4,
                  dirEntrySize := entrySizeOf st.dirEntry, dirEntry := none,
                  dirOpen := false,
                  sdata := (entrySizeOf st.dirEntry >>> 24) % 256,
                  checknack := true, ptr := 1 }
        (by simpa using hc) (by simp)
      have hfull : run env st (List.replicate (specTailBytes e []).length
            (Event.byteReadReq false)) =
          ⟨{ st with dirState := DirStreamState.idle, dirByteCounter := 4,
                     dirEntrySize := entrySizeOf st.dirEntry,
                     dirEntry := none, dirOpen := false, sdata := 255,
                     checknack := true, ptr := 0 },
           [FSCall.closeEntry, FSCall.openNext, FSCall.closeDir], [],
           specTailBytes e [], []⟩ := by
        rw [hsplit]
        simp only [run_append, List.replicate_one]
        rw [h1]
        dsimp only
        rw [h2]
        dsimp only
        rw [h3]
        simp [specTailBytes, he]
      exact ⟨_, _, hfull, by simp, by simp, by simp⟩
  | cons e' rs ih =>
      intro st e hc hs hk hb he hrem
      have hsplit : List.replicate (specTailBytes e (e' :: rs)).length
            (Event.byteReadReq false) =
          List.replicate ((captureBuf e.name).length + 1)
            (Event.byteReadReq false) ++
          (List.replicate 4 (Event.byteReadReq false) ++
           (List.replicate 1 (Event.byteReadReq false) ++
            List.replicate (specTailBytes e' rs).length
              (Event.byteReadReq false))) := by
        rw [← List.replicate_add, ← List.replicate_add, ← List.replicate_add]
        congr 1
        simp [specTailBytes, le4]
        omega
      have h1 := runL_name env (captureBuf e.name) st [] hc hs
        (by simpa using hk) (by simpa using hb) (by simp)
        (captureBuf_no_zero e.name)
      have h2 := runL_size_cons env
        { st with dirState := DirStreamState.sendSize, dirByteCounter := 0,
                  dirEntrySize := entrySizeOf st.dirEntry, sdata := 0,
                  checknack := true, ptr := 1 }
        e' rs (by simpa using hc) (by simp) (by simp) (by simpa using hrem)
      have h3 := runL_typeNext env
        { st with dirState := DirStreamState.sendTypeNext,
                  dirByteCounter := 4,
                  dirEntrySize := entrySizeOf st.dirEntry,
                  dirEntry := some e', dirRemaining := rs,
                  sdata := (entrySizeOf st.dirEntry >>> 24) % 256,
                  checknack := true, ptr := 1 }
        e' (by simpa using hc) (by simp) (by simp)
      obtain ⟨fin, cals, hrun, hf1, hf2, hf3⟩ := ih
        { st with dirState := DirStreamState.sendName, dirByteCounter := 0,
                  dirNameBuf := captureBuf e'.name,
                  dirEntrySize := entrySizeOf st.dirEntry,
                  dirEntry := some e', dirRemaining := rs,
                  sdata := if e'.isDir then 68 else 70,
                  checknack := true, ptr := 1 }
        e' (by simpa using hc) (by simp) (by simp) (by simp) (by simp)
        (by simp)
      have hfull : run env st
            (List.replicate (specTailBytes e (e' :: rs)).length
              (Event.byteReadReq false)) =
          ⟨fin, [FSCall.closeEntry, FSCall.openNext] ++ cals, [],
           specTailBytes e (e' :: rs), []⟩ := by
        rw [hsplit]
        simp only [run_append, List.replicate_one]
        rw [h1]
        dsimp only
        rw [h2]
        dsimp only
        rw [h3]
        dsimp only
        rw [hrun]
        simp [specTailBytes, he]
      exact ⟨fin, _, hfull, hf1, hf2, hf3⟩

theorem specListing_eq_tail :
    ∀ (rest : List DirEntry) (e : DirEntry),
      (∀ x ∈ e :: rest, WFEntry x) →
      specListing (e :: rest) = specTypeByte e :: specTailBytes e rest := by
  intro rest
  induction rest with
  | nil =>
      intro e hwf
      have h1 := captureBuf_of_wf e.name (hwf e (by simp)).1
        (hwf e (by simp)).2.1
      have h2 := entrySizeOf_of_wf e (hwf e (by simp)).2.2
      simp [specListing, specEntryBytes, specTailBytes, specTypeByte, h1, h2]
  | cons e' rs ih =>
      intro e hwf
      have h1 := captureBuf_of_wf e.name (hwf e (by simp)).1
        (hwf e (by simp)).2.1
      have h2 := entrySizeOf_of_wf e (hwf e (by simp)).2.2
      have hih := ih e' (fun x hx => hwf x (List.mem_cons_of_mem e hx))
      have hstep : specListing (e :: e' :: rs) =
          specEntryBytes e ++ specListing (e' :: rs) := by
        simp [specListing]
      rw [hstep, hih]
      simp [specEntryBytes, specTailBytes, specTypeByte, h1, h2]

/-- C6: a directory-listing transaction.  When the directory cannot be
opened or is not a directory, the first response byte is 0xFF, the cursor
stays Idle and no listing handle is open.  When it opens, the engine
streams, for each entry in iteration order, its type byte ('D'/'F'), its
base name (at most 12 characters) followed by a zero byte, and its 4 size
bytes LSB-first (0 for directories), then a final 0xFF; afterwards the
cursor is Idle again and both listing handles are closed.  (An empty
directory is the entry-list-[] instance of the second part: its stream is
just 0xFF.) -/
theorem claim6_dirstream (env : Env) (st : MState)
    (hc : st.command = 76) (hs : st.dirState = DirStreamState.idle)
    (ho : st.dirOpen = false) (he : st.dirEntry = none) :
    ((env.dirOpenOk = false ∨ env.dirIsDir = false) →
       (run env st [Event.byteReadReq false]).bytes = [255] ∧
       (run env st [Event.byteReadReq false]).st.dirState =
         DirStreamState.idle ∧
       (run env st [Event.byteReadReq false]).st.dirOpen = false ∧
       (run env st [Event.byteReadReq false]).st.dirEntry = none) ∧
    (env.dirOpenOk = true → env.dirIsDir = true →
     (∀ e ∈ env.dirEntries, WFEntry e) →
       (run env st (List.replicate (specListing env.dirEntries).length
           (Event.byteReadReq false))).bytes = specListing env.dirEntries ∧
       (run env st (List.replicate (specListing env.dirEntries).length
           (Event.byteReadReq false))).st.dirState = DirStreamState.idle ∧
       (run env st (List.replicate (specListing env.dirEntries).length
           (Event.byteReadReq false))).st.dirOpen = false ∧
       (run env st (List.replicate (specListing env.dirEntries).length
           (Event.byteReadReq false))).st.dirEntry = none) := by
  constructor
  · intro hfail
    rcases hfail with h | h <;>
      simp [run, isrStep, DataHostRead, hc, hs, ho, he, h]
  · intro h1 h2 hwf
    cases hent : env.dirEntries with
    | nil =>
        have hemp : specListing ([] : List DirEntry) = [255] := by
          simp [specListing]
        rw [hemp]
        simp [run, isrStep, DataHostRead, hc, hs, h1, h2, hent, he,
              List.replicate_one]
    | cons e rest =>
        rw [hent] at hwf
        have hbridge := specListing_eq_tail rest e hwf
        have hstep : DataHostRead env st =
            ({ st with sdata := if e.isDir then 68 else 70,
                       dirNameBuf := captureBuf e.name,
                       dirState := DirStreamState.sendName,
                       dirByteCounter := 0, dirOpen := true,
                       dirEntry := some e, dirRemaining := rest, ptr := 1 },
             [FSCall.openDir, FSCall.openNext]) := by
          simp [DataHostRead, hc, hs, h1, h2, hent]
        obtain ⟨fin, cals, hrun, hf1, hf2, hf3⟩ := runL_tail env rest
          { st with sdata := if e.isDir then 68 else 70,
                    dirNameBuf := captureBuf e.name,
                    dirState := DirStreamState.sendName,
                    dirByteCounter := 0, dirOpen := true,
                    dirEntry := some e, dirRemaining := rest, ptr := 1,
                    checknack := true }
          e (by simpa using hc) (by simp) (by simp) (by simp) (by simp)
          (by simp)
        have hfull : run env st
              (List.replicate (specListing (e :: rest)).length
                (Event.byteReadReq false)) =
            ⟨fin, [FSCall.openDir, FSCall.openNext] ++ cals, [],
             specListing (e :: rest), []⟩ := by
          rw [hbridge,
              show (specTypeByte e :: specTailBytes e rest).length =
                (specTailBytes e rest).length + 1 from by simp,
              run_rr, hstep]
          dsimp only
          rw [hrun]
          simp [specTypeByte]
        rw [hfull]
        exact ⟨rfl, hf1, hf2, hf3⟩

/-- C6 witness: listing a directory containing the file "A.TXT" (size 258)
and the directory "LOGS" produces exactly the spec-layout stream. -/
theorem claim6_witness :
    (stL6.command = 76 ∧ stL6.dirState = DirStreamState.idle ∧
     stL6.dirOpen = false ∧ stL6.dirEntry = none ∧
     envDir.dirOpenOk = true ∧ envDir.dirIsDir = true ∧
     (∀ e ∈ envDir.dirEntries, WFEntry e)) ∧
    ((run envDir stL6 (List.replicate (specListing envDir.dirEntries).length
        (Event.byteReadReq false))).bytes = specListing envDir.dirEntries ∧
     (run envDir stL6 (List.replicate (specListing envDir.dirEntries).length
        (Event.byteReadReq false))).st.dirState = DirStreamState.idle ∧
     (run envDir stL6 (List.replicate (specListing envDir.dirEntries).length
        (Event.byteReadReq false))).st.dirOpen = false ∧
     (run envDir stL6 (List.replicate (specListing envDir.dirEntries).length
        (Event.byteReadReq false))).st.dirEntry = none) :=
  ⟨⟨by decide, by decide, by decide, by decide, by decide, by decide,
    by decide⟩,
   (claim6_dirstream envDir stL6 (by decide) (by decide) (by decide)
      (by decide)).2 (by decide) (by decide) (by decide)⟩

/-- C10 witness: a 7th clock byte after 24 07 1A 0A 1E 00 changes nothing. -/
theorem claim10_witness :
    stClockW.command = 67 ∧ stClockW.rtcPtr = 6 ∧
    ((isrStep envOk stClockW (Event.byteWritten 99)).ack = some false ∧
     (isrStep envOk stClockW (Event.byteWritten 99)).st.rtcBuffer =
       stClockW.rtcBuffer ∧
     (isrStep envOk stClockW (Event.byteWritten 99)).st.rtcPtr = 6 ∧
     clockOf (run envOk stClockW [Event.byteWritten 99, Event.stop]).st =
       clockOf (run envOk stClockW [Event.stop]).st) :=
  ⟨by decide, by decide,
   claim10_extra_clock_bytes envOk stClockW 99 (by decide) (by decide)⟩

end I2CSD
